import Mathlib

/-!
Shallow embedding of the `custombuild` Go package (builder.go) in Lean 4.

Go strings are modelled as `List Char`; Go durations as nanosecond `Nat`s;
external effects (processes, filesystem) appear as explicit effect traces
and outcome oracles, so every operation of the package becomes a pure,
executable Lean function mirroring the Go control flow statement by
statement.
-/

namespace Custombuild

/-- Go strings, modelled as lists of characters. -/
abbrev GoStr := List Char

/-- Convenience: a Lean string literal as a `GoStr`. -/
def gs (s : String) : GoStr := s.data

/-! ## Environment model (builder.go: type Env, Env.Set, Env.Get) -/

/-- Models `strings.SplitN(v, "=", 2)` as used by `Env.Set`/`Env.Get`:
`some (k, val)` corresponds to a split of length 2 (key before the first
`=`, remainder after it); `none` corresponds to the length-below-2 case
(no `=` in the entry), which both Go loops skip with `continue`. -/
def splitFirstEq : GoStr → Option (GoStr × GoStr)
  | [] => none
  | c :: cs =>
    if c = '=' then some ([], cs)
    else
      match splitFirstEq cs with
      | none => none
      | some (k, v) => some (c :: k, v)

/-- The `keyVal := key + "=" + value` string built at the top of `Env.Set`. -/
def envKeyVal (key value : GoStr) : GoStr := key ++ '=' :: value

/-- The `for i, v := range *e` loop body of `Env.Set`: replace the first
well-formed entry whose key matches and stop (`break`); entries without
`=` are skipped. -/
def setLoop (key keyVal : GoStr) : List GoStr → List GoStr
  | [] => []
  | v :: rest =>
    match splitFirstEq v with
    | none => v :: setLoop key keyVal rest
    | some (k, _) =>
      if k = key then keyVal :: rest else v :: setLoop key keyVal rest

/-- `Env.Set` (builder.go:463-476): runs the replace-in-place loop and then
unconditionally executes `*e = append(*e, keyVal)` — the append happens
even when an in-place replacement already occurred. -/
def envSet (e : List GoStr) (key value : GoStr) : List GoStr :=
  setLoop key (envKeyVal key value) e ++ [envKeyVal key value]

/-- `Env.Get` (builder.go:479-490): scan front-to-back, skip entries without
`=`, return the value of the first entry whose key matches, `""` if none. -/
def envGet : List GoStr → GoStr → GoStr
  | [], _ => []
  | v :: rest, key =>
    match splitFirstEq v with
    | none => envGet rest key
    | some (k, val) => if k = key then val else envGet rest key

/-- Number of well-formed entries of an environment carrying a given key. -/
def countKey (e : List GoStr) (key : GoStr) : Nat :=
  (e.filter fun v =>
    match splitFirstEq v with
    | none => false
    | some (k, _) => k == key).length

example : gs "ab" = ['a', 'b'] := rfl
example : splitFirstEq (gs "K=v1") = some (gs "K", gs "v1") := rfl
example : envSet [] (gs "K") (gs "v1") = [gs "K=v1"] := rfl
example :
    envSet (envSet [] (gs "K") (gs "v1")) (gs "K") (gs "v2")
      = [gs "K=v2", gs "K=v2"] := rfl

/-- Splitting `key ++ "=" ++ value` at the first `=` recovers `(key, value)`
whenever the key itself contains no `=`. -/
theorem splitFirstEq_envKeyVal (key value : GoStr) (h : '=' ∉ key) :
    splitFirstEq (envKeyVal key value) = some (key, value) := by
  induction key with
  | nil => simp [envKeyVal, splitFirstEq]
  | cons c cs ih =>
    have hc : ¬ c = '=' := fun e => h (e ▸ List.mem_cons_self c cs)
    have hcs : '=' ∉ cs := fun m => h (List.mem_cons_of_mem c m)
    have ih' := ih hcs
    simp only [envKeyVal, List.cons_append] at ih' ⊢
    simp [splitFirstEq, hc, ih']

theorem envGet_setLoop (e : List GoStr) (key value : GoStr) (h : '=' ∉ key) :
    envGet (setLoop key (envKeyVal key value) e ++ [envKeyVal key value]) key
      = value := by
  induction e with
  | nil => simp [setLoop, envGet, splitFirstEq_envKeyVal key value h]
  | cons v rest ih =>
    cases hv : splitFirstEq v with
    | none => simpa [setLoop, hv, envGet] using ih
    | some kv =>
      obtain ⟨k, val⟩ := kv
      by_cases hk : k = key
      · simp [setLoop, hv, hk, envGet, splitFirstEq_envKeyVal key value h]
      · simpa [setLoop, hv, hk, envGet] using ih

/-- C1: `Env.Set` does NOT keep at most one entry per key.  The loop
replaces the first matching entry in place and breaks, but the trailing
`append` runs unconditionally, so `Set("K","v1")` then `Set("K","v2")`
on an empty environment leaves TWO entries for `K` (both `K=v2`),
contradicting the at-most-one-entry invariant of the spec. -/
theorem envSet_duplicates_entries :
    envSet (envSet [] (gs "K") (gs "v1")) (gs "K") (gs "v2")
      = [gs "K=v2", gs "K=v2"]
    ∧ countKey (envSet (envSet [] (gs "K") (gs "v1")) (gs "K") (gs "v2"))
        (gs "K") = 2 := by
  constructor <;> rfl

/-- C8: for any environment and any key that contains no `=` (so that the
stored `key=value` entry parses back to the same key), `Get` immediately
after `Set` returns the value just set: both scans skip malformed entries
and agree on the first matching position, which `Set` has just
overwritten (or, when absent, appended). -/
theorem envGet_after_envSet (e : List GoStr) (key value : GoStr)
    (h : '=' ∉ key) : envGet (envSet e key value) key = value := by
  unfold envSet
  exact envGet_setLoop e key value h

/-- Witness for C8 at a concrete environment with a duplicate and a
malformed entry. -/
theorem envGet_after_envSet_witness :
    envGet (envSet [gs "K=v0", gs "junk", gs "K=v0"] (gs "K") (gs "v9"))
      (gs "K") = gs "v9" :=
  envGet_after_envSet [gs "K=v0", gs "junk", gs "K=v0"] (gs "K") (gs "v9")
    (by decide)

/-! ## Command error formatter (builder.go:226-234, errorFmt) -/

/-- `errorFmt` (builder.go:226-234): builds
`err.Error() + "\n---- " + "COMMAND: " + strings.Join(cmd.Args, " ") + "\n---- "`
and then appends `"\n---- " + line` for every line scanned from the
captured diagnostic stream.  `cmdArgs` is `cmd.Args` (program name first),
`diag` the lines of the scanner in order. -/
def errorFmt (cmdArgs : List GoStr) (errMsg : GoStr) (diag : List GoStr) : GoStr :=
  diag.foldl (fun r line => r ++ gs "\n---- " ++ line)
    (errMsg ++ gs "\n---- " ++ gs "COMMAND: "
      ++ List.intercalate (gs " ") cmdArgs ++ gs "\n---- ")

theorem foldl_marker (init : GoStr) (diag : List GoStr) :
    diag.foldl (fun r line => r ++ gs "\n---- " ++ line) init
      = init ++ (diag.map (fun l => gs "\n---- " ++ l)).flatten := by
  induction diag generalizing init with
  | nil => simp
  | cons l ls ih =>
    rw [List.foldl_cons, ih]
    simp [List.append_assoc]

theorem intercalate_cons_eq (sep x : GoStr) (xs : List GoStr) :
    List.intercalate sep (x :: xs) = x ++ (xs.map (fun l => sep ++ l)).flatten := by
  induction xs generalizing x with
  | nil => simp [List.intercalate]
  | cons y ys ih =>
    have hstep : List.intercalate sep (x :: y :: ys)
        = x ++ sep ++ List.intercalate sep (y :: ys) := by
      simp [List.intercalate, List.intersperse_cons_cons]
    rw [hstep, ih y]
    simp [List.append_assoc]

theorem errorFmt_eq_intercalate (cmdArgs : List GoStr) (errMsg : GoStr)
    (diag : List GoStr) :
    errorFmt cmdArgs errMsg diag
      = List.intercalate (gs "\n")
          (errMsg
            :: (gs "---- COMMAND: " ++ List.intercalate (gs " ") cmdArgs)
            :: gs "---- "
            :: diag.map (fun l => gs "---- " ++ l)) := by
  unfold errorFmt
  rw [foldl_marker, intercalate_cons_eq]
  have hfun : (fun l : GoStr => gs "\n" ++ (gs "---- " ++ l))
      = fun l : GoStr => gs "\n---- " ++ l := funext fun l => rfl
  simp only [List.map_cons, List.map_map, Function.comp, hfun,
    List.flatten_cons, List.append_assoc]
  rfl

/-- C5: the formatted error is exactly the newline-join of: the underlying
error message, a marker line naming the space-joined command line, an
empty marker line, and one marker-prefixed line per diagnostic line in
order; instantiated at the concrete example of the spec. -/
theorem errorFmt_line_structure (cmdArgs : List GoStr) (errMsg : GoStr)
    (diag : List GoStr) :
    errorFmt cmdArgs errMsg diag
      = List.intercalate (gs "\n")
          (errMsg
            :: (gs "---- COMMAND: " ++ List.intercalate (gs " ") cmdArgs)
            :: gs "---- "
            :: diag.map (fun l => gs "---- " ++ l))
    ∧ errorFmt [gs "fetch", gs "x"] (gs "exit status 1") [gs "boom"]
        = gs "exit status 1\n---- COMMAND: fetch x\n---- \n---- boom" :=
  ⟨errorFmt_eq_intercalate cmdArgs errMsg diag, rfl⟩

/-! ## Path helpers (filepath.Base, filepath.Join, strings.TrimSuffix) -/

/-- Models `filepath.Base` on unix: empty path gives ".", a path of only
separators gives "/", otherwise the last element after dropping trailing
separators. -/
def baseName (p : GoStr) : GoStr :=
  if p = [] then gs "."
  else
    let r := p.reverse.dropWhile (fun c => c == '/')
    if r = [] then gs "/" else (r.takeWhile (fun c => ¬ c == '/')).reverse

/-- Models `filepath.Join` / `path.Join` on unix: empty elements are
skipped and the rest are joined with the separator (the `Clean`
normalisation pass, irrelevant to the claims here, is not modelled). -/
def joinPath (parts : List GoStr) : GoStr :=
  List.intercalate (gs "/") (parts.filter (fun p => ¬ p.isEmpty))

/-- Models `strings.TrimSuffix`. -/
def trimSuffixGo (s suffix : GoStr) : GoStr :=
  if suffix.isSuffixOf s then s.take (s.length - suffix.length) else s

/-- Models `strconv.Itoa` for non-negative values. -/
def itoa (n : Nat) : GoStr := Nat.toDigits 10 n

example : baseName (gs "/a/b/c") = gs "c" := rfl
example : joinPath [gs "/tmp/x", gs "src", gs "repo_1_"] = gs "/tmp/x/src/repo_1_" := rfl

/-! ## Builder (builder.go:31-74) -/

/-- The `Builder` struct (builder.go:31-74).  The `Generator` function
field is represented by its presence (`hasGenerator`, i.e. `Generator !=
nil`); its behaviour enters through the Setup oracle.  `timePerPackage`
is in nanoseconds. -/
structure Builder where
  RepoPath : GoStr
  hasGenerator : Bool
  Packages : List GoStr
  CommandName : GoStr
  CommandArgs : List GoStr
  SubPackage : GoStr
  timePerPackage : Nat
  repoCopy : GoStr
  goPath : GoStr
  useNetworkForAll : Bool
  ready : Bool
  env : List GoStr
deriving Repr, DecidableEq

/-- `defaultGoGetTimeout = 30 * time.Second` in nanoseconds. -/
def defaultGoGetTimeout : Nat := 30 * 1000000000

/-- Outcome oracle for one `go get` process: the start call failed, the
process finished before the deadline (with an optional error), or the
deadline expired first (with an optional error from `Process.Kill`). -/
inductive GoGetOutcome where
  | startErr (e : GoStr)
  | finished (res : Option GoStr)
  | timedOut (killErr : Option GoStr)
deriving Repr, DecidableEq

/-- Result of a modelled `goGet` run: the deadline that was armed, whether
the process-exit wait (`<-done`) was observed, and the returned error. -/
structure GoGetRun where
  deadline : Nat
  waited : Bool
  result : Option GoStr
deriving Repr, DecidableEq

/-- The argument list `goGet` passes to the fetch command
(builder.go:181-185): `get -d`, then `-u -f` when `useNetworkForAll`,
then the packages. -/
def Builder.goGetArgs (b : Builder) (pkgs : List GoStr) : List GoStr :=
  (gs "get" :: gs "-d" :: (if b.useNetworkForAll then [gs "-u", gs "-f"] else []))
    ++ pkgs

/-- `goGet` (builder.go:168-219): empty package list returns immediately;
otherwise the deadline is `timePerPackage * len(pkgs)` with a fallback to
the default when that product is zero.  A start failure returns the
formatted error without waiting.  Completion before the deadline returns
the formatted process error, if any.  On deadline expiry the process is
killed, the exit wait is observed (`<-done`), and the kill error — when
the kill itself failed — is formatted as the primary error; otherwise the
fixed "process killed" message is. -/
def Builder.goGet (b : Builder) (pkgs : List GoStr) (o : GoGetOutcome)
    (diag : List GoStr) : GoGetRun :=
  if pkgs.isEmpty then ⟨0, false, none⟩
  else
    let timeout := if b.timePerPackage * pkgs.length = 0 then defaultGoGetTimeout
      else b.timePerPackage * pkgs.length
    let args := gs "go" :: b.goGetArgs pkgs
    match o with
    | .startErr e => ⟨timeout, false, some (errorFmt args e diag)⟩
    | .finished none => ⟨timeout, true, none⟩
    | .finished (some e) => ⟨timeout, true, some (errorFmt args e diag)⟩
    | .timedOut (some ke) => ⟨timeout, true, some (errorFmt args ke diag)⟩
    | .timedOut none =>
        ⟨timeout, true,
          some (errorFmt args (gs "process killed: go get took too long") diag)⟩

/-- C4: for a non-empty dependency list the deadline is
`timePerPackage * length` with fallback to the default when the product
is zero; on expiry the exit wait is observed and the returned error wraps
"process killed", except that a kill failure becomes the primary
formatted error. -/
theorem goGet_deadline_and_timeout (b : Builder) (pkgs diag : List GoStr)
    (ke : GoStr) (h : pkgs ≠ []) :
    (b.goGet pkgs (.timedOut none) diag).deadline
        = (if b.timePerPackage * pkgs.length = 0 then defaultGoGetTimeout
           else b.timePerPackage * pkgs.length)
    ∧ (b.goGet pkgs (.timedOut none) diag).waited = true
    ∧ (b.goGet pkgs (.timedOut none) diag).result
        = some (errorFmt (gs "go" :: b.goGetArgs pkgs)
            (gs "process killed: go get took too long") diag)
    ∧ (∀ msg, (b.goGet pkgs (.timedOut none) diag).result = some msg →
        gs "process killed" <+: msg)
    ∧ (b.goGet pkgs (.timedOut (some ke)) diag).waited = true
    ∧ (b.goGet pkgs (.timedOut (some ke)) diag).result
        = some (errorFmt (gs "go" :: b.goGetArgs pkgs) ke diag) := by
  have hne : pkgs.isEmpty = false := by
    cases pkgs with
    | nil => exact absurd rfl h
    | cons a l => rfl
  refine ⟨?_, ?_, ?_, ?_, ?_, ?_⟩ <;>
    simp only [Builder.goGet, hne, Bool.false_eq_true, if_false]
  · intro msg hm
    have hmsg : msg = errorFmt (gs "go" :: b.goGetArgs pkgs)
        (gs "process killed: go get took too long") diag := by
      simpa using hm.symm
    subst hmsg
    rw [errorFmt_eq_intercalate (gs "go" :: b.goGetArgs pkgs)
      (gs "process killed: go get took too long") diag,
      intercalate_cons_eq]
    have hsplit : gs "process killed: go get took too long"
        = gs "process killed" ++ gs ": go get took too long" := rfl
    rw [hsplit, List.append_assoc]
    exact List.prefix_append _ _

/-- Concrete builder used by the goGet witness. -/
def bFetch : Builder :=
  { RepoPath := gs "/repo", hasGenerator := false, Packages := [gs "x"],
    CommandName := [], CommandArgs := [], SubPackage := [],
    timePerPackage := 0, repoCopy := [], goPath := [],
    useNetworkForAll := false, ready := false, env := [] }

/-- Witness for C4 at one package, zero per-package budget (exercising the
default fallback), one diagnostic line, and a failing kill. -/
theorem goGet_deadline_and_timeout_witness :
    (bFetch.goGet [gs "x"] (.timedOut none) [gs "boom"]).deadline
        = defaultGoGetTimeout
    ∧ (bFetch.goGet [gs "x"] (.timedOut none) [gs "boom"]).result
        = some (gs "process killed: go get took too long\n---- COMMAND: go get -d x\n---- \n---- boom")
    ∧ (bFetch.goGet [gs "x"] (.timedOut (some (gs "kill fail"))) [gs "boom"]).result
        = some (gs "kill fail\n---- COMMAND: go get -d x\n---- \n---- boom") := by
  have h := goGet_deadline_and_timeout bFetch [gs "x"] [gs "boom"]
    (gs "kill fail") (by decide)
  exact ⟨h.1.trans (by rfl), h.2.2.1.trans (by rfl),
    h.2.2.2.2.2.trans (by rfl)⟩

/-! ## Lifecycle: Setup, Teardown, build, SetImportPath
(builder.go:110-154, 237-242, 269-314) -/

/-- Filesystem / process effects performed by the lifecycle operations. -/
inductive FsEffect where
  | goGetSpawn (pkgs : List GoStr)
  | tempDirCreate (p : GoStr)
  | mkdirAll (p : GoStr)
  | deepCopyRun (src dst : GoStr)
  | generatorRun (root : GoStr) (pkgs : List GoStr)
  | removeAll (p : GoStr)
  | renameDir (src dst : GoStr)
  | spawnBuild (dir cmdName : GoStr) (cmdArgs env : List GoStr)
deriving Repr, DecidableEq

/-- Oracle for the external steps of one `Setup` call, in program order:
the fetch outcome and its diagnostics, the `ioutil.TempDir` result, the
random suffix, and the errors (if any) of `MkdirAll`, `DeepCopy` and the
generator callback. -/
structure SetupWorld where
  goGetOutcome : GoGetOutcome
  goGetDiag : List GoStr
  tempDirResult : Except GoStr GoStr
  randInt : Nat
  mkdirErr : Option GoStr
  deepCopyErr : Option GoStr
  generatorErr : Option GoStr

/-- `Setup` (builder.go:110-154), transcribed step by step: reject when
already ready; run `goGet` over `Packages`; create the temporary GOPATH;
prepend it to the `GOPATH` entry of the environment; compute `repoCopy`
and `MkdirAll` it; `DeepCopy` the repository; run the generator when one
is set; only then set `ready`.  Every failure returns the builder as
mutated so far — in particular `goPath` stays set after a generator
failure. -/
def Builder.Setup (b : Builder) (w : SetupWorld) :
    Builder × Option GoStr × List FsEffect :=
  if b.ready then (b, some (gs "already set up"), [])
  else
    let fetchEffs : List FsEffect :=
      if b.Packages.isEmpty then [] else [.goGetSpawn b.Packages]
    match (b.goGet b.Packages w.goGetOutcome w.goGetDiag).result with
    | some e => (b, some e, fetchEffs)
    | none =>
      match w.tempDirResult with
      | .error e => (b, some e, fetchEffs)
      | .ok p =>
        let b1 : Builder := { b with
          goPath := p,
          env := envSet b.env (gs "GOPATH") (p ++ ':' :: envGet b.env (gs "GOPATH")),
          repoCopy := joinPath [p, gs "src",
            baseName b.RepoPath ++ '_' :: (itoa w.randInt ++ ['_'])] }
        let effs1 := fetchEffs ++ [.tempDirCreate p, .mkdirAll b1.repoCopy]
        match w.mkdirErr with
        | some e => (b1, some e, effs1)
        | none =>
          let effs2 := effs1 ++ [.deepCopyRun b.RepoPath b1.repoCopy]
          match w.deepCopyErr with
          | some e => (b1, some e, effs2)
          | none =>
            if b.hasGenerator then
              let effs3 := effs2 ++ [.generatorRun b1.repoCopy b.Packages]
              match w.generatorErr with
              | some e => (b1, some e, effs3)
              | none => ({ b1 with ready := true }, none, effs3)
            else ({ b1 with ready := true }, none, effs2)

/-- `Teardown` (builder.go:237-242): rejected with "not set up" when the
readiness flag is unset, otherwise returns `os.RemoveAll(goPath)`.  The
readiness flag is never cleared. -/
def Builder.Teardown (b : Builder) (removeErr : Option GoStr) :
    Builder × Option GoStr × List FsEffect :=
  if ¬ b.ready then (b, some (gs "not set up"), [])
  else (b, removeErr, [.removeAll b.goPath])

/-- Oracle for one `build` call: the `filepath.Abs(output)` result, the
process error, and the captured diagnostics. -/
structure BuildWorld where
  absResult : Except GoStr GoStr
  runErr : Option GoStr
  diag : List GoStr

/-- The unexported `build` (builder.go:269-295): rejected when not ready;
resolve the destination; pick `go build -o dest args...` or the custom
command with the destination and extra args appended; run it in
`path.Join(repoCopy, SubPackage)` with the environment plus the target
variables (plus `CGO_ENABLED=0` when static); format failures through
`errorFmt`. -/
def Builder.build (b : Builder) (goos goarch goarm output : GoStr)
    (static : Bool) (args : List GoStr) (w : BuildWorld) :
    Builder × Option GoStr × List FsEffect :=
  if ¬ b.ready then (b, some (gs "not set up"), [])
  else
    match w.absResult with
    | .error e => (b, some e, [])
    | .ok destination =>
      let cmdName := if b.CommandName.isEmpty then gs "go" else b.CommandName
      let cmdArgs := if b.CommandName.isEmpty
        then [gs "build", gs "-o", destination] ++ args
        else (b.CommandArgs ++ [destination]) ++ args
      let dir := joinPath [b.repoCopy, b.SubPackage]
      let envBase := b.env ++ [envKeyVal (gs "GOOS") goos,
        envKeyVal (gs "GOARCH") goarch, envKeyVal (gs "GOARM") goarm]
      let cmdEnv := if static
        then envBase ++ [envKeyVal (gs "CGO_ENABLED") (gs "0")] else envBase
      let effs := [FsEffect.spawnBuild dir cmdName cmdArgs cmdEnv]
      match w.runErr with
      | some e => (b, some (errorFmt (cmdName :: cmdArgs) e w.diag), effs)
      | none => (b, none, effs)

/-- `Build` (builder.go:247-249). -/
def Builder.Build (b : Builder) (goos goarch output : GoStr)
    (args : List GoStr) (w : BuildWorld) :=
  b.build goos goarch [] output false args w

/-- `BuildARM` (builder.go:253-255). -/
def Builder.BuildARM (b : Builder) (goos : GoStr) (goarm : Nat)
    (output : GoStr) (args : List GoStr) (w : BuildWorld) :=
  b.build goos (gs "arm") (itoa goarm) output false args w

/-- `BuildStatic` (builder.go:259-261). -/
def Builder.BuildStatic (b : Builder) (goos goarch output : GoStr)
    (args : List GoStr) (w : BuildWorld) :=
  b.build goos goarch [] output true args w

/-- `BuildStaticARM` (builder.go:265-267). -/
def Builder.BuildStaticARM (b : Builder) (goos : GoStr) (goarm : Nat)
    (output : GoStr) (args : List GoStr) (w : BuildWorld) :=
  b.build goos (gs "arm") (itoa goarm) output true args w

/-- `baseImportPath` (builder.go:316-318). -/
def Builder.baseImportPath (_b : Builder) (importPath : GoStr) : GoStr :=
  trimSuffixGo importPath (baseName importPath)

/-- `SetImportPath` (builder.go:300-314), non-windows branch: compute the
new directory, `MkdirAll` its parent (early return on failure), attempt
the rename, then assign `b.repoCopy = newDirectory` regardless of any
rename error, and return that error. -/
def Builder.SetImportPath (b : Builder) (importPath : GoStr)
    (mkdirErr renameErr : Option GoStr) :
    Builder × Option GoStr × List FsEffect :=
  let newDirectory := joinPath [b.goPath, gs "src", importPath]
  match mkdirErr with
  | some e => (b, some e, [.mkdirAll (b.baseImportPath newDirectory)])
  | none =>
    ({ b with repoCopy := newDirectory }, renameErr,
      [.mkdirAll (b.baseImportPath newDirectory),
       .renameDir b.repoCopy newDirectory])

/-! ## State-machine claims -/

/-- C3: Setup when already Ready, and Teardown or any Build variant when
not Ready, each fail with the corresponding state error, return the
builder unchanged, and perform no effect. -/
theorem state_checks_no_side_effects (b : Builder) (w : SetupWorld)
    (r : Option GoStr) (goos goarch goarm output : GoStr) (goarmN : Nat)
    (static : Bool) (args : List GoStr) (bw : BuildWorld) :
    (b.ready = true → b.Setup w = (b, some (gs "already set up"), []))
    ∧ (b.ready = false →
        b.Teardown r = (b, some (gs "not set up"), [])
        ∧ b.build goos goarch goarm output static args bw
            = (b, some (gs "not set up"), [])
        ∧ b.Build goos goarch output args bw = (b, some (gs "not set up"), [])
        ∧ b.BuildARM goos goarmN output args bw
            = (b, some (gs "not set up"), [])
        ∧ b.BuildStatic goos goarch output args bw
            = (b, some (gs "not set up"), [])
        ∧ b.BuildStaticARM goos goarmN output args bw
            = (b, some (gs "not set up"), [])) := by
  constructor
  · intro h
    simp [Builder.Setup, h]
  · intro h
    refine ⟨?_, ?_, ?_, ?_, ?_, ?_⟩ <;>
      simp [Builder.Teardown, Builder.build, Builder.Build, Builder.BuildARM,
        Builder.BuildStatic, Builder.BuildStaticARM, h]

/-- Concrete ready builder for witnesses. -/
def bReady : Builder :=
  { RepoPath := gs "/repo", hasGenerator := false, Packages := [],
    CommandName := [], CommandArgs := [], SubPackage := [],
    timePerPackage := 0, repoCopy := gs "/tmp/t/src/repo_1_",
    goPath := gs "/tmp/t", useNetworkForAll := true, ready := true,
    env := [gs "GOPATH=/go"] }

/-- Concrete unready builder for witnesses. -/
def bUnready : Builder :=
  { RepoPath := gs "/repo", hasGenerator := false, Packages := [],
    CommandName := [], CommandArgs := [], SubPackage := [],
    timePerPackage := 0, repoCopy := [], goPath := [],
    useNetworkForAll := true, ready := false, env := [gs "GOPATH=/go"] }

/-- Benign setup world for witnesses. -/
def wBenign : SetupWorld :=
  { goGetOutcome := .finished none, goGetDiag := [],
    tempDirResult := .ok (gs "/tmp/t"), randInt := 1, mkdirErr := none,
    deepCopyErr := none, generatorErr := none }

/-- Benign build world for witnesses. -/
def bwBenign : BuildWorld :=
  { absResult := .ok (gs "/abs/out"), runErr := none, diag := [] }

/-- Witness for C3 with a ready and an unready concrete builder. -/
theorem state_checks_no_side_effects_witness :
    bReady.Setup wBenign = (bReady, some (gs "already set up"), [])
    ∧ bUnready.Teardown none = (bUnready, some (gs "not set up"), [])
    ∧ bUnready.Build (gs "linux") (gs "amd64") (gs "out") [] bwBenign
        = (bUnready, some (gs "not set up"), []) :=
  ⟨(state_checks_no_side_effects bReady wBenign none (gs "linux") (gs "amd64")
      [] (gs "out") 6 false [] bwBenign).1 rfl,
   ((state_checks_no_side_effects bUnready wBenign none (gs "linux")
      (gs "amd64") [] (gs "out") 6 false [] bwBenign).2 rfl).1,
   ((state_checks_no_side_effects bUnready wBenign none (gs "linux")
      (gs "amd64") [] (gs "out") 6 false [] bwBenign).2 rfl).2.2.1⟩

/-- Builder whose Setup will fail in the generator callback. -/
def bGen : Builder :=
  { RepoPath := gs "/repo", hasGenerator := true, Packages := [],
    CommandName := [], CommandArgs := [], SubPackage := [],
    timePerPackage := 0, repoCopy := [], goPath := [],
    useNetworkForAll := true, ready := false, env := [gs "GOPATH=/go"] }

/-- World in which every step of Setup succeeds except the generator. -/
def wGenFail : SetupWorld :=
  { goGetOutcome := .finished none, goGetDiag := [],
    tempDirResult := .ok (gs "/tmp/custombuild_1_"), randInt := 1,
    mkdirErr := none, deepCopyErr := none,
    generatorErr := some (gs "codegen failed") }

/-- C2 (code bug): when Setup fails in the transformation callback after
the temporary workspace root has been created, the builder records the
created root but stays un-ready, and the subsequent Teardown is rejected
with the "not set up" state error, performing no removal — it does not
reclaim the workspace root as the spec mandates. -/
theorem teardown_rejected_after_failed_setup :
    (bGen.Setup wGenFail).2.1 = some (gs "codegen failed")
    ∧ (bGen.Setup wGenFail).1.ready = false
    ∧ (bGen.Setup wGenFail).1.goPath = gs "/tmp/custombuild_1_"
    ∧ FsEffect.tempDirCreate (gs "/tmp/custombuild_1_") ∈ (bGen.Setup wGenFail).2.2
    ∧ (bGen.Setup wGenFail).1.Teardown none
        = ((bGen.Setup wGenFail).1, some (gs "not set up"), []) := by
  refine ⟨rfl, rfl, rfl, ?_, rfl⟩
  decide

/-- C9: a successful Teardown leaves the readiness flag set, so a second
Teardown call passes the state check and runs the removal again, and a
build afterwards also passes the state check (and succeeds when the
compiler does). -/
theorem teardown_keeps_ready (b : Builder) (goos goarch goarm output : GoStr)
    (static : Bool) (args diag : List GoStr) (h : b.ready = true) :
    (b.Teardown none).2.1 = none
    ∧ (b.Teardown none).1.ready = true
    ∧ (b.Teardown none).1.Teardown none
        = (b, none, [FsEffect.removeAll b.goPath])
    ∧ ((b.Teardown none).1.build goos goarch goarm output static args
        ⟨.ok output, none, diag⟩).2.1 = none := by
  refine ⟨?_, ?_, ?_, ?_⟩ <;> simp [Builder.Teardown, Builder.build, h]

/-- Witness for C9: after tearing down the ready builder, a second
Teardown still runs the removal and a build still passes the state
check. -/
theorem teardown_keeps_ready_witness :
    (bReady.Teardown none).2.1 = none
    ∧ (bReady.Teardown none).1.Teardown none
        = (bReady, none, [FsEffect.removeAll (gs "/tmp/t")])
    ∧ ((bReady.Teardown none).1.build (gs "linux") (gs "amd64") []
        (gs "out") false [] ⟨.ok (gs "out"), none, []⟩).2.1 = none := by
  have h := teardown_keeps_ready bReady (gs "linux") (gs "amd64") []
    (gs "out") false [] [] rfl
  exact ⟨h.1, h.2.2.1.trans (by rfl), h.2.2.2⟩

/-- C10: when the rename fails, `SetImportPath` still reassigns
`repoCopy` to the new destination directory and returns the rename error;
the only filesystem actions attempted were the parent `MkdirAll` and the
failed rename, so the files are still at the old location while the
recorded path points at the new one. -/
theorem setImportPath_updates_repoCopy_on_rename_failure (b : Builder)
    (importPath e : GoStr) :
    (b.SetImportPath importPath none (some e)).1.repoCopy
        = joinPath [b.goPath, gs "src", importPath]
    ∧ (b.SetImportPath importPath none (some e)).2.1 = some e
    ∧ (b.SetImportPath importPath none (some e)).2.2
        = [FsEffect.mkdirAll
            (b.baseImportPath (joinPath [b.goPath, gs "src", importPath])),
           FsEffect.renameDir b.repoCopy
            (joinPath [b.goPath, gs "src", importPath])] :=
  ⟨rfl, rfl, rfl⟩

/-! ## Reference rewriter (builder.go:329-365, RewriteImports / rewritePath) -/

/-- Models `strings.TrimPrefix`. -/
def trimPref (s pre : GoStr) : GoStr :=
  if pre.isPrefixOf s then s.drop pre.length else s

/-- The per-import body of `rewritePath` (builder.go:352-358): when
the path of the import starts with `oldPath`, the kept suffix
`strings.TrimPrefix(impPath, oldPath)` is appended to `newPath`;
otherwise the import is untouched. -/
def rewriteImportRef (oldPath newPath impPath : GoStr) : GoStr :=
  if oldPath.isPrefixOf impPath then newPath ++ trimPref impPath oldPath
  else impPath

/-- `rewritePath` (builder.go:342-365) on the parsed import list of a
file: rewrite each import reference in place. -/
def rewritePath (imports : List GoStr) (oldPath newPath : GoStr) : List GoStr :=
  imports.map (rewriteImportRef oldPath newPath)

/-- C6: an import equal to `oldPath` or extending it by any suffix is
rewritten to `newPath` with the suffix preserved verbatim, and an import
not prefixed by `oldPath` is left untouched; hence the whole parsed
reference list of a processed file maps accordingly. -/
theorem rewritePath_rewrites_matching_refs (oldPath newPath sub p : GoStr)
    (h : ¬ oldPath.isPrefixOf p = true) :
    rewriteImportRef oldPath newPath (oldPath ++ sub) = newPath ++ sub
    ∧ rewriteImportRef oldPath newPath p = p
    ∧ rewritePath [oldPath ++ sub, p] oldPath newPath = [newPath ++ sub, p] := by
  have h1 : oldPath.isPrefixOf (oldPath ++ sub) = true := by
    rw [List.isPrefixOf_iff_prefix]
    exact List.prefix_append _ _
  have h2 : rewriteImportRef oldPath newPath (oldPath ++ sub) = newPath ++ sub := by
    simp [rewriteImportRef, trimPref, h1, List.drop_left]
  have h3 : rewriteImportRef oldPath newPath p = p := by
    simp [rewriteImportRef, h]
  exact ⟨h2, h3, by simp [rewritePath, h2, h3]⟩

/-- Witness for C6 at the example of the spec: rewriting `old/pkg` to
`new/pkg` sends `old/pkg/sub` to `new/pkg/sub` and leaves `other/pkg`
untouched. -/
theorem rewritePath_rewrites_matching_refs_witness :
    rewritePath [gs "old/pkg/sub", gs "other/pkg"] (gs "old/pkg") (gs "new/pkg")
      = [gs "new/pkg/sub", gs "other/pkg"] :=
  (rewritePath_rewrites_matching_refs (gs "old/pkg") (gs "new/pkg")
    (gs "/sub") (gs "other/pkg") (by decide)).2.2

/-! ## Tree replicator (builder.go:370-428, DeepCopy) -/

/-- A source tree entry: a file or a directory with children, each
carrying its `info.Name()`. -/
inductive FTree where
  | file : GoStr → FTree
  | dir : GoStr → List FTree → FTree
deriving Repr

/-- The skip test of `DeepCopy` (builder.go:378):
`info.Name() == "" || info.Name()[0] == '.'`. -/
def hiddenEntry (n : GoStr) : Bool :=
  match n with
  | [] => true
  | c :: _ => c == '.'

mutual
/-- `DeepCopy` (builder.go:370-428) as a tree transformer: a hidden or
nameless entry yields nothing (`filepath.SkipDir` prevents descending
into a skipped directory), a visible file is copied, and a visible
directory is recreated with its replicated children. -/
def DeepCopy : FTree → Option FTree
  | .file n => if hiddenEntry n then none else some (.file n)
  | .dir n cs => if hiddenEntry n then none else some (.dir n (deepCopyForest cs))

/-- Replication of the children of a directory in walk order. -/
def deepCopyForest : List FTree → List FTree
  | [] => []
  | t :: ts =>
    match DeepCopy t with
    | none => deepCopyForest ts
    | some t2 => t2 :: deepCopyForest ts
end

/-- Root entry name of a tree. -/
def FTree.nameOf : FTree → GoStr
  | .file n => n
  | .dir n _ => n

mutual
/-- All entry paths of a tree (each path is the list of names from the
root to the entry, the root included). -/
def pathsOf : FTree → List (List GoStr)
  | .file n => [[n]]
  | .dir n cs => [n] :: (pathsForest cs).map (fun p => n :: p)

/-- All entry paths of a forest. -/
def pathsForest : List FTree → List (List GoStr)
  | [] => []
  | t :: ts => pathsOf t ++ pathsForest ts
end

/-- A path all of whose components are visible (non-hidden, non-empty). -/
def pathVisible (p : List GoStr) : Bool := p.all (fun n => ¬ hiddenEntry n)

theorem FTree.one_le_sizeOf (t : FTree) : 1 ≤ sizeOf t := by
  cases t <;> simp_arith

theorem copy_paths_visible_fuel (n : Nat) :
    (∀ t : FTree, sizeOf t ≤ n → ∀ t', DeepCopy t = some t' →
      ∀ p ∈ pathsOf t', pathVisible p = true)
    ∧ (∀ ts : List FTree, sizeOf ts ≤ n →
      ∀ p ∈ pathsForest (deepCopyForest ts), pathVisible p = true) := by
  induction n with
  | zero =>
    constructor
    · intro t ht
      have := t.one_le_sizeOf
      omega
    · intro ts hts p hp
      cases ts with
      | nil => simp [deepCopyForest, pathsForest] at hp
      | cons t ts' => simp_arith at hts
  | succ n ih =>
    constructor
    · intro t ht t' hcopy p hp
      cases t with
      | file nm =>
        cases hH : hiddenEntry nm with
        | true => simp [DeepCopy, hH] at hcopy
        | false =>
          simp [DeepCopy, hH] at hcopy
          subst hcopy
          simp [pathsOf] at hp
          subst hp
          simp [pathVisible, hH]
      | dir nm cs =>
        cases hH : hiddenEntry nm with
        | true => simp [DeepCopy, hH] at hcopy
        | false =>
          simp [DeepCopy, hH] at hcopy
          subst hcopy
          simp [pathsOf] at hp
          rcases hp with hp | ⟨q, hq, hpq⟩
          · subst hp
            simp [pathVisible, hH]
          · subst hpq
            have hcs : sizeOf cs ≤ n := by
              simp_arith at ht
              have := Nat.le_trans (Nat.le_add_left (sizeOf cs) (sizeOf nm)) ht
              omega
            have hvq := ih.2 cs hcs q hq
            simp [pathVisible, hH] at hvq ⊢
            exact hvq
    · intro ts hts p hp
      cases ts with
      | nil => simp [deepCopyForest, pathsForest] at hp
      | cons t ts' =>
        have hbound : sizeOf t ≤ n ∧ sizeOf ts' ≤ n := by
          simp_arith at hts
          have h1 := t.one_le_sizeOf
          omega
        cases hc : DeepCopy t with
        | none =>
          rw [show deepCopyForest (t :: ts') = deepCopyForest ts' by
            simp [deepCopyForest, hc]] at hp
          exact ih.2 ts' hbound.2 p hp
        | some t2 =>
          rw [show deepCopyForest (t :: ts') = t2 :: deepCopyForest ts' by
            simp [deepCopyForest, hc]] at hp
          simp [pathsForest] at hp
          rcases hp with hp | hp
          · exact ih.1 t hbound.1 t2 hc p hp
          · exact ih.2 ts' hbound.2 p hp

/-- C7: a hidden or nameless root entry is skipped outright, and whenever
replication produces a destination tree, no path containing a hidden or
nameless component is present in it — hidden entries and all their
descendants are absent. -/
theorem DeepCopy_skips_hidden (t : FTree) :
    (hiddenEntry t.nameOf = true → DeepCopy t = none)
    ∧ (∀ t', DeepCopy t = some t' →
        ∀ p, pathVisible p = false → p ∉ pathsOf t') := by
  constructor
  · intro h
    cases t <;> simp [DeepCopy, FTree.nameOf] at h ⊢ <;> simp [h]
  · intro t' hcopy p hvis hmem
    have := (copy_paths_visible_fuel (sizeOf t)).1 t (Nat.le_refl _) t' hcopy p hmem
    rw [this] at hvis
    exact absurd hvis (by simp)

/-- Concrete source tree with a hidden file and a hidden directory. -/
def tHidden : FTree :=
  .dir (gs "src")
    [.file (gs ".hid"), .dir (gs ".git") [.file (gs "config")], .file (gs "a")]

/-- Witness for C7: replicating the concrete tree keeps only the visible
file, and the descendant `src/.git/config` of the hidden directory is absent
from the destination. -/
theorem DeepCopy_skips_hidden_witness :
    DeepCopy tHidden = some (.dir (gs "src") [.file (gs "a")])
    ∧ DeepCopy (.file (gs ".hid")) = none
    ∧ [gs "src", gs ".git", gs "config"]
        ∉ pathsOf (.dir (gs "src") [.file (gs "a")]) :=
  ⟨rfl, (DeepCopy_skips_hidden (.file (gs ".hid"))).1 rfl,
    (DeepCopy_skips_hidden tHidden).2 (.dir (gs "src") [.file (gs "a")]) rfl
      [gs "src", gs ".git", gs "config"] rfl⟩

end Custombuild
